import Mathlib

/-!
Shallow embedding of `arduniocontroller.h` (UnoJoy-style Arduino controller
library).  The C file declares a bit-field struct `dataForController_t`,
a global buffer `controllerDataBuffer`, a writer `setControllerData` that
copies a whole struct into the buffer inside `ATOMIC_BLOCK`, a timer ISR
that every `serialCheckInterval` ticks drains the serial input and answers
each request byte `i` with byte `i` of the buffer (an unchecked indexed
read `((uint8_t*)&controllerDataBuffer)[inByte]`), and a pure factory
`getBlankDataForController`.

Bit-field layout (avr-gcc: bits are allocated LSB-first inside each
byte-sized storage unit): the 17 one-bit button fields occupy bytes 0 and 1
and bit 0 of byte 2; the 7-bit `padding` field occupies bits 1..7 of
byte 2; the four 8-bit stick fields occupy bytes 3..6.  The serialized
struct is therefore 7 bytes.
-/

/-- Embedding of the C bit-field struct `dataForController_t`
(src/arduniocontroller.h lines 43-71).  One-bit button fields are `Bool`;
the 7-bit `padding` field and the 8-bit stick fields are `Nat`, masked to
their declared widths by `serialize` exactly as the C storage masks them. -/
structure dataForController_t where
  triangleOn : Bool
  circleOn : Bool
  squareOn : Bool
  crossOn : Bool
  l1On : Bool
  l2On : Bool
  l3On : Bool
  r1On : Bool
  r2On : Bool
  r3On : Bool
  selectOn : Bool
  startOn : Bool
  homeOn : Bool
  dpadLeftOn : Bool
  dpadUpOn : Bool
  dpadRightOn : Bool
  dpadDownOn : Bool
  padding : Nat
  leftStickX : Nat
  leftStickY : Nat
  rightStickX : Nat
  rightStickY : Nat
  deriving DecidableEq, Repr

/-- Numeric value of a one-bit field. -/
def bitVal (b : Bool) : Nat := if b then 1 else 0

/-- Value of the byte whose bits, LSB first, are the given list. -/
def bitsToByte : List Bool → Nat
  | [] => 0
  | b :: rest => bitVal b + 2 * bitsToByte rest

/-- Bit `i` of the 7-bit `padding` field. -/
def padBit (p : Nat) (i : Nat) : Bool := decide ((p / 2 ^ i) % 2 = 1)

/-- The serialized (in-memory) bytes of a `dataForController_t` under the
avr-gcc bit-field layout: bits allocated LSB-first in declaration order,
each field masked to its declared width. -/
def serialize (s : dataForController_t) : List Nat :=
  [ bitsToByte [s.triangleOn, s.circleOn, s.squareOn, s.crossOn,
      s.l1On, s.l2On, s.l3On, s.r1On],
    bitsToByte [s.r2On, s.r3On, s.selectOn, s.startOn,
      s.homeOn, s.dpadLeftOn, s.dpadUpOn, s.dpadRightOn],
    bitsToByte [s.dpadDownOn, padBit s.padding 0, padBit s.padding 1,
      padBit s.padding 2, padBit s.padding 3, padBit s.padding 4,
      padBit s.padding 5, padBit s.padding 6],
    s.leftStickX % 256, s.leftStickY % 256,
    s.rightStickX % 256, s.rightStickY % 256 ]

/-- Byte `index` of the serialized form; `none` when `index` is outside
the struct (the spec's partial `byteAt`). -/
def byteAt (s : dataForController_t) (index : Nat) : Option Nat :=
  (serialize s)[index]?

/-- Embedding of `getBlankDataForController` (lines 177-205).  The C
function leaves the `padding` bits of its stack-local struct
uninitialized, so the model takes the indeterminate initial `padding`
value as the argument `pad`; every named field is assigned exactly as in
the source. -/
def getBlankDataForController (pad : Nat) : dataForController_t :=
  { triangleOn := false, circleOn := false, squareOn := false
    crossOn := false, l1On := false, l2On := false, l3On := false
    r1On := false, r2On := false, r3On := false, selectOn := false
    startOn := false, homeOn := false, dpadLeftOn := false
    dpadUpOn := false, dpadRightOn := false, dpadDownOn := false
    padding := pad
    leftStickX := 128, leftStickY := 128
    rightStickX := 128, rightStickY := 128 }

/-- The mutable globals of the library: `controllerDataBuffer`,
`serialCheckInterval` and `serialCheckCounter` (lines 102, 118, 121).
The two counters are C `int`s, modelled as `Int`. -/
structure UnoJoyState where
  controllerDataBuffer : dataForController_t
  serialCheckInterval : Int
  serialCheckCounter : Int
  deriving DecidableEq, Repr

/-- Embedding of `setControllerData` (lines 109-115): whole-struct copy
into `controllerDataBuffer`.  The `ATOMIC_BLOCK(ATOMIC_FORCEON)` around
the copy makes it a single atomic step with respect to the timer ISR,
which is why the copy is one transition here. -/
def setControllerData (controllerData : dataForController_t)
    (st : UnoJoyState) : UnoJoyState :=
  { st with controllerDataBuffer := controllerData }

/-- One ISR response: `((uint8_t*)&controllerDataBuffer)[inByte]`
(line 169).  For `i` inside the struct this is serialized byte `i`; for
`i` past the struct the C read falls into adjacent memory, modelled by
the ambient-memory function `adj`. -/
def isrServe (adj : Nat → Nat) (buf : dataForController_t) (i : Nat) : Nat :=
  match byteAt buf i with
  | some b => b
  | none => adj i

/-- The ISR drain loop (lines 162-171): one response byte per buffered
request byte, all served from the same buffer value. -/
def pollPass (adj : Nat → Nat) (buf : dataForController_t)
    (inbound : List Nat) : List Nat :=
  inbound.map (isrServe adj buf)

/-- Embedding of `ISR(TIMER0_COMPA_vect)` (lines 157-173): increment
`serialCheckCounter`; once it reaches `serialCheckInterval`, reset it and
drain the serial input, answering each request.  `inbound` is the content
of the serial receive buffer at this tick; the returned list is what the
ISR writes back. -/
def tickISR (adj : Nat → Nat) (st : UnoJoyState)
    (inbound : List Nat) : UnoJoyState × List Nat :=
  if st.serialCheckCounter + 1 ≥ st.serialCheckInterval then
    ({ st with serialCheckCounter := 0 },
      pollPass adj st.controllerDataBuffer inbound)
  else
    ({ st with serialCheckCounter := st.serialCheckCounter + 1 }, [])

/-- Embedding of `setupUnoJoy(int interval)` followed by `setupUnoJoy()`
(lines 125-150): set the interval, install the blank snapshot; the global
`serialCheckCounter` keeps its initial value 0.  `pad` is the
indeterminate `padding` content of the blank snapshot. -/
def setupUnoJoyWithInterval (interval : Int) (pad : Nat) : UnoJoyState :=
  { controllerDataBuffer := getBlankDataForController pad
    serialCheckInterval := interval
    serialCheckCounter := 0 }

/-! ### Helper lemmas -/

lemma bitVal_ite_mod_two (x : Nat) : bitVal (decide (x % 2 = 1)) = x % 2 := by
  rcases Nat.mod_two_eq_zero_or_one x with h | h <;> simp [bitVal, h]

/-- The seven `padding` bits of byte 2 reassemble to `padding % 128`. -/
lemma bitsToByte_padBits (p : Nat) :
    bitsToByte [padBit p 0, padBit p 1, padBit p 2, padBit p 3,
      padBit p 4, padBit p 5, padBit p 6] = p % 128 := by
  simp only [bitsToByte, padBit, bitVal_ite_mod_two]
  norm_num
  omega

lemma bitsToByte_cons (b : Bool) (l : List Bool) :
    bitsToByte (b :: l) = bitVal b + 2 * bitsToByte l := rfl

lemma bitsToByte_nil : bitsToByte [] = 0 := rfl

/-- The ISR leaves the stored snapshot untouched. -/
lemma tickISR_buffer (adj : Nat → Nat) (st : UnoJoyState) (inbound : List Nat) :
    (tickISR adj st inbound).1.controllerDataBuffer = st.controllerDataBuffer := by
  unfold tickISR
  split <;> rfl

/-- The ISR leaves the configured interval untouched. -/
lemma tickISR_interval (adj : Nat → Nat) (st : UnoJoyState) (inbound : List Nat) :
    (tickISR adj st inbound).1.serialCheckInterval = st.serialCheckInterval := by
  unfold tickISR
  split <;> rfl

/-- A blank snapshot with the left stick pushed to 200, as in the spec's
end-to-end scenario. -/
def leftStick200 : dataForController_t :=
  { getBlankDataForController 0 with leftStickX := 200 }

lemma mod_succ_step (n K : Nat) (hK : 0 < K) :
    (n + 1) % K = if n % K + 1 ≥ K then 0 else n % K + 1 := by
  have hlt : n % K < K := Nat.mod_lt _ hK
  have h1 : (n + 1) % K = (n % K + 1) % K := by
    conv_lhs => rw [← Nat.mod_add_div n K]
    rw [Nat.add_right_comm, Nat.add_mul_mod_self_left]
  by_cases hc : n % K + 1 ≥ K
  · have hK2 : n % K + 1 = K := by omega
    rw [h1, hK2, Nat.mod_self]
    simp
  · rw [h1, Nat.mod_eq_of_lt (by omega), if_neg hc]

/-! ### Claim theorems -/

/-- Claim C1, counterexample.  The claim places `leftStickX` at serialized
byte 2, but in the source struct the 17th button bit (`dpadDownOn`) and the
7 padding bits occupy byte 2, pushing `leftStickX` to byte 3: for the
concrete snapshot `leftStick200` (blank with `leftStickX := 200`), byte 2
of the serialized form is not 200. -/
theorem byte2_is_not_leftStickX :
    leftStick200.leftStickX = 200 ∧
      (serialize leftStick200)[2]? ≠ some 200 ∧
      (serialize leftStick200)[3]? = some 200 := by
  decide

/-- Claim C1, amended.  The serialized layout of `dataForController_t` is
7 bytes: byte 0 holds the first 8 button flags in declared order, LSB
first; byte 1 holds the next 8 button flags in declared order, LSB first;
byte 2 holds `dpadDownOn` in bit 0 and the 7 `padding` bits in bits 1..7;
bytes 3, 4, 5 and 6 are `leftStickX`, `leftStickY`, `rightStickX` and
`rightStickY` — for every snapshot value. -/
theorem serialized_layout_bytes (s : dataForController_t) :
    serialize s =
      [ bitVal s.triangleOn + 2 * bitVal s.circleOn + 4 * bitVal s.squareOn
          + 8 * bitVal s.crossOn + 16 * bitVal s.l1On + 32 * bitVal s.l2On
          + 64 * bitVal s.l3On + 128 * bitVal s.r1On,
        bitVal s.r2On + 2 * bitVal s.r3On + 4 * bitVal s.selectOn
          + 8 * bitVal s.startOn + 16 * bitVal s.homeOn
          + 32 * bitVal s.dpadLeftOn + 64 * bitVal s.dpadUpOn
          + 128 * bitVal s.dpadRightOn,
        bitVal s.dpadDownOn + 2 * (s.padding % 128),
        s.leftStickX % 256, s.leftStickY % 256,
        s.rightStickX % 256, s.rightStickY % 256 ] := by
  have h2 : bitsToByte [s.dpadDownOn, padBit s.padding 0, padBit s.padding 1,
      padBit s.padding 2, padBit s.padding 3, padBit s.padding 4,
      padBit s.padding 5, padBit s.padding 6]
      = bitVal s.dpadDownOn + 2 * (s.padding % 128) := by
    rw [bitsToByte_cons, bitsToByte_padBits]
  simp only [serialize, h2, bitsToByte_cons, bitsToByte_nil, List.cons.injEq,
    and_true]
  exact ⟨by ring, by ring⟩

/-- Claim C7.  `getBlankDataForController` is a pure function (of the
indeterminate initial `padding` content `pad`); its result serializes with
bytes 0 and 1 zero, byte 2 even with a zero `dpadDownOn` bit (so all 17
button bits are 0), and all four axis bytes equal to 128. -/
theorem blank_serializes_neutral (pad : Nat) :
    (serialize (getBlankDataForController pad))[0]? = some 0 ∧
      (serialize (getBlankDataForController pad))[1]? = some 0 ∧
      (serialize (getBlankDataForController pad))[2]? = some (2 * (pad % 128)) ∧
      (2 * (pad % 128)) % 2 = 0 ∧
      (serialize (getBlankDataForController pad))[3]? = some 128 ∧
      (serialize (getBlankDataForController pad))[4]? = some 128 ∧
      (serialize (getBlankDataForController pad))[5]? = some 128 ∧
      (serialize (getBlankDataForController pad))[6]? = some 128 := by
  rw [serialized_layout_bytes (getBlankDataForController pad)]
  norm_num [getBlankDataForController, bitVal]

/-- Claim C4, counterexample.  The ISR answers request byte 7 (one past
the last serialized byte) with whatever adjacent memory holds: under two
ambient memories that differ only outside the snapshot, the responses at
offset 7 differ.  There is no clamp, ignore or protocol-violation policy
in the source. -/
theorem oob_response_is_adjacent_memory :
    isrServe (fun _ => 0) (getBlankDataForController 0) 7 = 0 ∧
      isrServe (fun _ => 77) (getBlankDataForController 0) 7 = 77 ∧
      (0 : Nat) ≠ 77 := by
  decide

/-- Claim C4, amended.  For every request byte `i ≥ 7` the source ISR
performs an unchecked indexed read past `controllerDataBuffer`: the
response is the content of adjacent memory at offset `i` (the `adj`
parameter of the model), under no distinguished-failure policy. -/
theorem oob_request_reads_adjacent (adj : Nat → Nat)
    (s : dataForController_t) (i : Nat) (h : 7 ≤ i) :
    isrServe adj s i = adj i := by
  unfold isrServe byteAt
  have hnone : (serialize s)[i]? = none := by
    apply List.getElem?_eq_none
    show (serialize s).length ≤ i
    simpa [serialize] using h
  rw [hnone]

/-- Witness for `oob_request_reads_adjacent` at offset 9. -/
theorem oob_request_reads_adjacent_witness :
    isrServe (fun j => j + 40) (getBlankDataForController 0) 9 = 49 :=
  oob_request_reads_adjacent (fun j => j + 40) (getBlankDataForController 0) 9
    (by decide)

/-- A sample non-blank snapshot used by concrete witnesses. -/
def exSnapshotA : dataForController_t :=
  { getBlankDataForController 0 with
      triangleOn := true, crossOn := true, r2On := true,
      dpadDownOn := true, leftStickX := 200, rightStickY := 17 }

/-- The state right after `setupUnoJoy(1)` with zeroed padding. -/
def exSetupState : UnoJoyState := setupUnoJoyWithInterval 1 0

/-- Claim C2.  After `setControllerData S`, a tick whose poll fires and
finds requests 0..6 buffered answers with exactly the serialized byte
sequence of `S`, bit-exact including the padding bits of byte 2. -/
theorem roundtrip_poll_serializes (adj : Nat → Nat)
    (S : dataForController_t) (st : UnoJoyState)
    (hfire : st.serialCheckCounter + 1 ≥ st.serialCheckInterval) :
    (tickISR adj (setControllerData S st) [0, 1, 2, 3, 4, 5, 6]).2
      = serialize S := by
  unfold tickISR setControllerData
  rw [if_pos hfire]
  rfl

/-- Witness for `roundtrip_poll_serializes` on `exSnapshotA` from the
post-setup state. -/
theorem roundtrip_poll_serializes_witness :
    (tickISR (fun _ => 0) (setControllerData exSnapshotA exSetupState)
      [0, 1, 2, 3, 4, 5, 6]).2 = serialize exSnapshotA :=
  roundtrip_poll_serializes (fun _ => 0) exSnapshotA exSetupState (by decide)

/-- The ISR's firing guard: after the increment, does
`serialCheckCounter >= serialCheckInterval` hold, so that this tick
drains the serial port? -/
def pollFires (st : UnoJoyState) : Bool :=
  decide (st.serialCheckCounter + 1 ≥ st.serialCheckInterval)

/-- `n` consecutive ISR invocations (with an idle serial buffer) from a
given state. -/
def runTicks (adj : Nat → Nat) (st : UnoJoyState) : Nat → UnoJoyState
  | 0 => st
  | n + 1 => (tickISR adj (runTicks adj st n) []).1

/-- How many of the first `n` ISR invocations fire a poll. -/
def pollCount (adj : Nat → Nat) (st : UnoJoyState) : Nat → Nat
  | 0 => 0
  | n + 1 => pollCount adj st n
      + (if pollFires (runTicks adj st n) then 1 else 0)

lemma tickISR_counter (adj : Nat → Nat) (st : UnoJoyState)
    (inbound : List Nat) :
    (tickISR adj st inbound).1.serialCheckCounter
      = if st.serialCheckCounter + 1 ≥ st.serialCheckInterval then 0
        else st.serialCheckCounter + 1 := by
  unfold tickISR
  split <;> simp_all

lemma runTicks_interval (adj : Nat → Nat) (st : UnoJoyState) (n : Nat) :
    (runTicks adj st n).serialCheckInterval = st.serialCheckInterval := by
  induction n with
  | zero => rfl
  | succ n ih => rw [runTicks, tickISR_interval, ih]

/-- From the post-setup state with interval `K ≥ 1`, the counter after
`n` ISR invocations is `n % K`. -/
lemma runTicks_counter_mod (K : Nat) (hK : 0 < K) (adj : Nat → Nat)
    (pad : Nat) (n : Nat) :
    (runTicks adj (setupUnoJoyWithInterval (K : Int) pad) n).serialCheckCounter
      = ((n % K : Nat) : Int) := by
  induction n with
  | zero =>
    simp [runTicks, setupUnoJoyWithInterval, Nat.mod_eq_of_lt hK]
  | succ n ih =>
    rw [runTicks, tickISR_counter, runTicks_interval, ih,
      mod_succ_step n K hK]
    simp only [setupUnoJoyWithInterval]
    by_cases hc : n % K + 1 ≥ K
    · have hc2 : (((n % K : Nat)) : Int) + 1 ≥ ((K : Nat) : Int) := by
        exact_mod_cast hc
      rw [if_pos hc2, if_pos hc]
      simp
    · have hc2 : ¬ ((((n % K : Nat)) : Int) + 1 ≥ ((K : Nat) : Int)) := by
        exact_mod_cast hc
      rw [if_neg hc2, if_neg hc]
      push_cast
      ring

/-- Claim C5.  With `serialCheckInterval = K ≥ 1` and the counter starting
at 0, the poll fires on ticks `K, 2K, 3K, ...` and on no others: among the
first `n` ISR invocations exactly `n / K` polls fire, and invocation
`n + 1` fires iff `K` divides `n + 1`. -/
theorem poll_cadence (K : Nat) (hK : 1 ≤ K) (adj : Nat → Nat) (pad : Nat)
    (n : Nat) :
    pollCount adj (setupUnoJoyWithInterval (K : Int) pad) n = n / K ∧
      (pollFires (runTicks adj (setupUnoJoyWithInterval (K : Int) pad) n)
          = true ↔ (n + 1) % K = 0) := by
  have hfire : ∀ m : Nat,
      (pollFires (runTicks adj (setupUnoJoyWithInterval (K : Int) pad) m)
          = true ↔ (m + 1) % K = 0) := by
    intro m
    unfold pollFires
    rw [runTicks_counter_mod K hK adj pad m, runTicks_interval]
    simp only [setupUnoJoyWithInterval, decide_eq_true_eq]
    have hms := mod_succ_step m K hK
    have hlt : m % K < K := Nat.mod_lt _ hK
    constructor
    · intro h
      have h2 : m % K + 1 ≥ K := by exact_mod_cast h
      rw [hms, if_pos h2]
    · intro h
      by_contra hc
      have h2 : ¬ (m % K + 1 ≥ K) := fun hge => hc (by exact_mod_cast hge)
      rw [hms, if_neg h2] at h
      omega
  refine ⟨?_, hfire n⟩
  induction n with
  | zero => simp [pollCount]
  | succ n ih =>
    rw [pollCount, ih, Nat.succ_div]
    congr 1
    by_cases hd : K ∣ n + 1
    · rw [if_pos ((hfire n).mpr (Nat.dvd_iff_mod_eq_zero.mp hd)),
        if_pos hd]
    · have h1 : ¬ (pollFires (runTicks adj
          (setupUnoJoyWithInterval (K : Int) pad) n) = true) := by
        intro hf
        exact hd (Nat.dvd_iff_mod_eq_zero.mpr ((hfire n).mp hf))
      rw [if_neg h1, if_neg hd]

/-- Witness for `poll_cadence` with interval 3 after 7 ticks. -/
theorem poll_cadence_witness :
    pollCount (fun _ => 0) (setupUnoJoyWithInterval ((3 : Nat) : Int) 0) 7
        = 7 / 3 ∧
      (pollFires (runTicks (fun _ => 0)
          (setupUnoJoyWithInterval ((3 : Nat) : Int) 0) 7) = true
        ↔ (7 + 1) % 3 = 0) :=
  poll_cadence 3 (by decide) (fun _ => 0) 0 7

/-- Claim C10.  For any configured interval `K ≥ 1`:
the post-setup state has counter 0 with `0 ≤ 0 < K`, and any state whose
counter satisfies `0 ≤ counter < interval` steps under the ISR to a state
whose counter again satisfies it (reset to 0 on fire, otherwise `+1`),
so the counter never reaches the interval at rest. -/
theorem counter_invariant (K : Int) (adj : Nat → Nat) (pad : Nat)
    (st : UnoJoyState) (inbound : List Nat)
    (hK : 1 ≤ K)
    (h0 : 0 ≤ st.serialCheckCounter)
    (h1 : st.serialCheckCounter < st.serialCheckInterval) :
    ((setupUnoJoyWithInterval K pad).serialCheckCounter = 0 ∧
      0 ≤ (setupUnoJoyWithInterval K pad).serialCheckCounter ∧
      (setupUnoJoyWithInterval K pad).serialCheckCounter
        < (setupUnoJoyWithInterval K pad).serialCheckInterval) ∧
    (0 ≤ (tickISR adj st inbound).1.serialCheckCounter ∧
      (tickISR adj st inbound).1.serialCheckCounter
        < (tickISR adj st inbound).1.serialCheckInterval) := by
  refine ⟨⟨rfl, le_refl 0, hK⟩, ?_⟩
  rw [tickISR_counter, tickISR_interval]
  by_cases hc : st.serialCheckCounter + 1 ≥ st.serialCheckInterval
  · rw [if_pos hc]
    omega
  · rw [if_neg hc]
    omega

/-- A mid-run scheduler state: interval 5, counter 3. -/
def exMidState : UnoJoyState :=
  { exSetupState with serialCheckInterval := 5, serialCheckCounter := 3 }

/-- Witness for `counter_invariant` with interval 5 and counter 3. -/
theorem counter_invariant_witness :
    (((setupUnoJoyWithInterval 5 0).serialCheckCounter = 0 ∧
        0 ≤ (setupUnoJoyWithInterval 5 0).serialCheckCounter ∧
        (setupUnoJoyWithInterval 5 0).serialCheckCounter
          < (setupUnoJoyWithInterval 5 0).serialCheckInterval) ∧
      (0 ≤ (tickISR (fun _ => 0) exMidState [0]).1.serialCheckCounter ∧
        (tickISR (fun _ => 0) exMidState [0]).1.serialCheckCounter
          < (tickISR (fun _ => 0) exMidState [0]).1.serialCheckInterval)) :=
  counter_invariant 5 (fun _ => 0) 0 exMidState
    [0] (by decide) (by decide) (by decide)

/-- Claim C6.  On a firing tick the ISR drains the buffered requests in
order, answering each request `i` with exactly one byte; the number of
responses equals the number of buffered requests (it never waits for
more), and for every in-range request the response is
`byteAt(currentSnapshot, i)`. -/
theorem poll_drains_and_serves (adj : Nat → Nat) (st : UnoJoyState)
    (inbound : List Nat)
    (hfire : st.serialCheckCounter + 1 ≥ st.serialCheckInterval)
    (hin : ∀ i ∈ inbound, i < 7) :
    (tickISR adj st inbound).2
        = inbound.map (isrServe adj st.controllerDataBuffer) ∧
      (tickISR adj st inbound).2.length = inbound.length ∧
      ∀ i ∈ inbound, some (isrServe adj st.controllerDataBuffer i)
        = byteAt st.controllerDataBuffer i := by
  have h2 : (tickISR adj st inbound).2
      = pollPass adj st.controllerDataBuffer inbound := by
    unfold tickISR
    rw [if_pos hfire]
  refine ⟨by rw [h2]; rfl, by rw [h2]; simp [pollPass], ?_⟩
  intro i hi
  have hil : i < (serialize st.controllerDataBuffer).length := by
    have := hin i hi
    simpa [serialize] using this
  have hb : byteAt st.controllerDataBuffer i
      = some (serialize st.controllerDataBuffer)[i] :=
    List.getElem?_eq_getElem hil
  unfold isrServe
  rw [hb]

/-- Witness for `poll_drains_and_serves` on requests `[3, 0, 6]`. -/
theorem poll_drains_and_serves_witness :
    ((tickISR (fun _ => 0) (setControllerData exSnapshotA exSetupState)
          [3, 0, 6]).2
        = [3, 0, 6].map (isrServe (fun _ => 0)
            (setControllerData exSnapshotA exSetupState).controllerDataBuffer) ∧
      (tickISR (fun _ => 0) (setControllerData exSnapshotA exSetupState)
          [3, 0, 6]).2.length = ([3, 0, 6] : List Nat).length ∧
      ∀ i ∈ ([3, 0, 6] : List Nat),
        some (isrServe (fun _ => 0)
            (setControllerData exSnapshotA exSetupState).controllerDataBuffer i)
          = byteAt
            (setControllerData exSnapshotA exSetupState).controllerDataBuffer
            i) :=
  poll_drains_and_serves (fun _ => 0)
    (setControllerData exSnapshotA exSetupState) [3, 0, 6]
    (by decide) (by decide)

/-- Claim C8.  Polling the same in-range offset twice within one drain
pass, with no intervening `setControllerData`, returns the same byte both
times, and that byte is the snapshot byte at that offset. -/
theorem repeated_poll_same_byte (adj : Nat → Nat) (st : UnoJoyState)
    (i : Nat)
    (hfire : st.serialCheckCounter + 1 ≥ st.serialCheckInterval)
    (hi : i < 7) :
    ∃ b, (tickISR adj st [i, i]).2 = [b, b] ∧
      byteAt st.controllerDataBuffer i = some b := by
  have hil : i < (serialize st.controllerDataBuffer).length := by
    simpa [serialize] using hi
  refine ⟨(serialize st.controllerDataBuffer)[i], ?_, ?_⟩
  · have h2 : (tickISR adj st [i, i]).2
        = pollPass adj st.controllerDataBuffer [i, i] := by
      unfold tickISR
      rw [if_pos hfire]
    rw [h2]
    have hserve : isrServe adj st.controllerDataBuffer i
        = (serialize st.controllerDataBuffer)[i] := by
      unfold isrServe
      rw [show byteAt st.controllerDataBuffer i
          = some (serialize st.controllerDataBuffer)[i] from
        List.getElem?_eq_getElem hil]
    simp [pollPass, hserve]
  · exact List.getElem?_eq_getElem hil

/-- Witness for `repeated_poll_same_byte` at offset 3. -/
theorem repeated_poll_same_byte_witness :
    ∃ b, (tickISR (fun _ => 0)
        (setControllerData exSnapshotA exSetupState) [3, 3]).2 = [b, b] ∧
      byteAt
        (setControllerData exSnapshotA exSetupState).controllerDataBuffer 3
        = some b :=
  repeated_poll_same_byte (fun _ => 0)
    (setControllerData exSnapshotA exSetupState) 3 (by decide) (by decide)

/-- Claim C9.  Frame conditions: every ISR invocation leaves the stored
snapshot (and the configured interval) unchanged, and `setControllerData`
leaves `serialCheckInterval` and `serialCheckCounter` unchanged — so the
buffer is written only by `setControllerData` (and setup), and the
scheduler state only by the ISR (and setup). -/
theorem frame_effects (adj : Nat → Nat) (st : UnoJoyState)
    (inbound : List Nat) (d : dataForController_t) :
    (tickISR adj st inbound).1.controllerDataBuffer
        = st.controllerDataBuffer ∧
      (tickISR adj st inbound).1.serialCheckInterval
        = st.serialCheckInterval ∧
      (setControllerData d st).serialCheckInterval
        = st.serialCheckInterval ∧
      (setControllerData d st).serialCheckCounter
        = st.serialCheckCounter :=
  ⟨tickISR_buffer adj st inbound, tickISR_interval adj st inbound, rfl, rfl⟩

/-- The two kinds of atomic steps in the system: a foreground
`setControllerData` call (atomic with respect to the ISR because the
whole-struct copy sits inside `ATOMIC_BLOCK(ATOMIC_FORCEON)`), and one
timer-ISR invocation (atomic with respect to the foreground because an
AVR interrupt handler runs to completion with the main loop suspended).
`tick` carries the serial receive-buffer content at that invocation. -/
inductive SysEvent where
  | write (d : dataForController_t) : SysEvent
  | tick (inbound : List Nat) : SysEvent
  deriving DecidableEq

/-- One interleaved step of the foreground writer and the ISR. -/
def sysStep (adj : Nat → Nat) (st : UnoJoyState) : SysEvent → UnoJoyState
  | SysEvent.write d => setControllerData d st
  | SysEvent.tick inbound => (tickISR adj st inbound).1

/-- Every state the system passes through along a trace of events,
including the initial and final states. -/
def statesAlong (adj : Nat → Nat) (st : UnoJoyState) :
    List SysEvent → List UnoJoyState
  | [] => [st]
  | e :: rest => st :: statesAlong adj (sysStep adj st e) rest

/-- The snapshots installed by the writer along a trace. -/
def writtenSnapshots : List SysEvent → List dataForController_t
  | [] => []
  | SysEvent.write d :: rest => d :: writtenSnapshots rest
  | SysEvent.tick _ :: rest => writtenSnapshots rest

/-- Claim C3.  Under any interleaving of foreground `setControllerData`
calls and ISR invocations, every state the system passes through holds a
buffer that is byte-for-byte the initial snapshot or one installed whole
by a single writer call — never a torn mix of two writes.  (The ISR
serves each drain pass from the buffer of the state it runs in, so its
observations are covered by this invariant.) -/
theorem buffer_never_torn (adj : Nat → Nat) (st0 : UnoJoyState)
    (evs : List SysEvent) (st : UnoJoyState)
    (hmem : st ∈ statesAlong adj st0 evs) :
    st.controllerDataBuffer = st0.controllerDataBuffer ∨
      st.controllerDataBuffer ∈ writtenSnapshots evs := by
  induction evs generalizing st0 with
  | nil =>
    rw [statesAlong, List.mem_singleton] at hmem
    left
    rw [hmem]
  | cons e rest ih =>
    rw [statesAlong] at hmem
    rcases List.mem_cons.mp hmem with h | h
    · left
      rw [h]
    · have hrec := ih (sysStep adj st0 e) h
      cases e with
      | write d =>
        right
        rw [writtenSnapshots]
        rcases hrec with h2 | h2
        · rw [h2]
          exact List.mem_cons_self _ _
        · exact List.mem_cons_of_mem _ h2
      | tick inbound =>
        rcases hrec with h2 | h2
        · left
          rw [h2]
          exact tickISR_buffer adj st0 inbound
        · right
          rw [writtenSnapshots]
          exact h2

/-- Witness for `buffer_never_torn`: the state reached after installing
`exSnapshotA` over the setup state, inside a trace that also polls and
then installs a blank snapshot. -/
theorem buffer_never_torn_witness :
    (sysStep (fun _ => 0) exSetupState
        (SysEvent.write exSnapshotA)).controllerDataBuffer
        = exSetupState.controllerDataBuffer ∨
      (sysStep (fun _ => 0) exSetupState
        (SysEvent.write exSnapshotA)).controllerDataBuffer
        ∈ writtenSnapshots [SysEvent.write exSnapshotA, SysEvent.tick [0, 1],
            SysEvent.write (getBlankDataForController 0)] :=
  buffer_never_torn (fun _ => 0) exSetupState
    [SysEvent.write exSnapshotA, SysEvent.tick [0, 1],
      SysEvent.write (getBlankDataForController 0)]
    (sysStep (fun _ => 0) exSetupState (SysEvent.write exSnapshotA))
    (by decide)
